import Mathlib

/-
Verification development for the inactive-assignee unassignment action.
The definitions below are a shallow embedding of the JavaScript sources,
chiefly src/scripts/index.js (the fullest variant: pagination, linked-PR
guard, membership classifier, mutator, reporter), together with the
Slack-notification helper of the raw-HTTP variant. External GitHub API
calls are modelled by an explicit environment of response functions;
a call that can fail is modelled with Option or Except.
-/

set_option autoImplicit false

namespace Unassign

/-- A GitHub user as the scripts see it: a login name and the site-admin flag.
A JavaScript falsy login (empty string) marks an invalid assignee object. -/
structure User where
  login : String
  site_admin : Bool
  deriving DecidableEq, Repr

/-- An issue as listed by the API: number, last-update timestamp in
milliseconds, optional body text, assignees, and whether the item is
actually a pull request. Number 0 models a falsy issue.number. -/
structure Issue where
  number : Nat
  updated_at : Nat
  body : Option String
  assignees : List User
  pull_request : Bool
  deriving DecidableEq, Repr

/-- The part of a fetched pull request the scripts inspect: its number and
its state string, compared against the literal "open". -/
structure PRInfo where
  number : Nat
  state : String
  deriving DecidableEq, Repr

/-- An item of a search.issuesAndPullRequests result: a number and whether
the item carries the pull_request marker. -/
structure SearchItem where
  number : Nat
  pull_request : Bool
  deriving DecidableEq, Repr

/-- An API error, carrying the HTTP status the catch blocks inspect. -/
structure ApiError where
  status : Nat
  deriving DecidableEq, Repr

/-- The record pushed for every unassigned user, consumed by the reporter. -/
structure UnassignmentRecord where
  user : String
  repo : String
  owner : String
  issueNumber : Nat
  issueUrl : String
  deriving DecidableEq, Repr

/-- A successful write performed against the repository. -/
inductive Mutation where
  | update (issueNumber : Nat) (assignees : List String)
  | comment (issueNumber : Nat) (body : String)
  deriving DecidableEq, Repr

/-- A fatal error thrown by the main loop. -/
inductive RunError where
  | permission
  deriving DecidableEq, Repr

/-- The environment of API responses seen by one run of module.exports in
src/scripts/index.js. A value of none or Except.error models the
corresponding request throwing. -/
structure Env where
  now : Nat
  repoOwner : Option String
  orgMembership : String → Except ApiError Unit
  pullsGet : Nat → Option PRInfo
  search : Nat → List SearchItem
  updateResult : Nat → List String → Except ApiError Unit
  commentResult : Nat → String → Except ApiError Unit

/-- The environment of the paginating issue lister: for each page number,
either the raw page data or a transport error. -/
structure ListerEnv where
  listPage : Nat → Except String (List Issue)

/- Body scanning: the three regular expressions of checkLinkedPRs, method 3,
implemented as left-to-right non-overlapping scans over the character list,
exactly as String.prototype.matchAll traverses with a global regex. -/

/-- Numeric value of a digit-character run, as parseInt reads it. -/
def natOfDigits (ds : List Char) : Nat :=
  ds.foldl (fun n c => 10 * n + (c.toNat - 48)) 0

/-- Whitespace characters matched by a JavaScript backslash-s class
(restricted to the ASCII ones). -/
def isJsSpace (c : Char) : Bool :=
  c == ' ' || c == '\t' || c == '\n' || c == '\r' || c == '\x0b' || c == '\x0c'

/-- Whether the first list is an initial segment of the second. -/
def listStarts : List Char → List Char → Bool
  | [], _ => true
  | _ :: _, [] => false
  | p :: ps, c :: cs => p == c && listStarts ps cs

/-- Case-insensitive variant of listStarts; the pattern is lowercase. -/
def ciStarts : List Char → List Char → Bool
  | [], _ => true
  | _ :: _, [] => false
  | p :: ps, c :: cs => p == c.toLower && ciStarts ps cs

/-- One attempted match of the bare-reference pattern, a hash mark followed
by one or more digits, at the head of the input. On success, the captured
number and the suffix after the match. -/
def stepHash (cs : List Char) : Option (Nat × List Char) :=
  match cs with
  | '#' :: r =>
    let ds := r.takeWhile Char.isDigit
    if ds.isEmpty then none else some (natOfDigits ds, r.drop ds.length)
  | _ => none

/-- The constant part of the full-URL pattern after the scheme, built from
the repository coordinates as the source interpolates them into the regex. -/
def urlPath (owner repo : String) : List Char :=
  ("://github.com/" ++ owner ++ "/" ++ repo ++ "/pull/").data

/-- One attempted match of the full pull-request URL pattern (http with an
optional s, then the repository pull path, then digits) at the head of the
input. -/
def stepUrl (path : List Char) (cs : List Char) : Option (Nat × List Char) :=
  if listStarts ("http".data) cs then
    let r1 := cs.drop 4
    let afterScheme : Option (List Char) :=
      match r1 with
      | 's' :: r => if listStarts path r then some (r.drop path.length) else none
      | _ => if listStarts path r1 then some (r1.drop path.length) else none
    match afterScheme with
    | none => none
    | some rest =>
      let ds := rest.takeWhile Char.isDigit
      if ds.isEmpty then none else some (natOfDigits ds, rest.drop ds.length)
  else none

/-- The closing keywords, in the alternation order of the source regex. -/
def jsKeywords : List (List Char) :=
  ["close".data, "closes".data, "closed".data, "fix".data, "fixes".data,
   "fixed".data, "resolve".data, "resolves".data, "resolved".data]

/-- The tail of the closing-keyword pattern: optional whitespace, an
optional colon, optional whitespace, then a hash mark and digits. -/
def tailRef (cs : List Char) : Option (Nat × List Char) :=
  let c1 := cs.dropWhile isJsSpace
  let c2 := match c1 with
    | ':' :: r => r.dropWhile isJsSpace
    | _ => c1
  match c2 with
  | '#' :: r =>
    let ds := r.takeWhile Char.isDigit
    if ds.isEmpty then none else some (natOfDigits ds, r.drop ds.length)
  | _ => none

/-- One attempted match of the closing-keyword pattern at the head of the
input, trying the keyword alternatives in regex order. -/
def stepKeyword (cs : List Char) : Option (Nat × List Char) :=
  jsKeywords.findSome? fun kw =>
    if ciStarts kw cs then tailRef (cs.drop kw.length) else none

/-- Left-to-right scan collecting all non-overlapping matches of a step
function, resuming after each match, as matchAll does. The fuel is the
input length; every iteration shortens the input, so it never runs out. -/
def scanAux (step : List Char → Option (Nat × List Char)) :
    Nat → List Char → List Nat
  | 0, _ => []
  | _ + 1, [] => []
  | fuel + 1, c :: rest =>
    match step (c :: rest) with
    | some (n, remaining) => n :: scanAux step fuel remaining
    | none => scanAux step fuel rest

/-- Insertion into the reference set, preserving first-insertion order as a
JavaScript Set does. -/
def insertRef (l : List Nat) (n : Nat) : List Nat :=
  if l.contains n then l else l ++ [n]

/-- The pull-request numbers referenced by the issue body: the three
patterns are scanned in order and their captures accumulated into a set. -/
def bodyPRRefs (owner repo : String) (body : Option String) : List Nat :=
  match body with
  | none => []
  | some b =>
    let cs := b.data
    let all := scanAux stepHash cs.length cs
            ++ scanAux (stepUrl (urlPath owner repo)) cs.length cs
            ++ scanAux stepKeyword cs.length cs
    all.foldl insertRef []

/- The three detection methods of checkLinkedPRs and their union. -/

/-- Method 1: when the issue itself carries the pull_request marker, fetch
it; a successful fetch is added regardless of state. -/
def method1 (env : Env) (issue : Issue) : List PRInfo :=
  if issue.pull_request then (env.pullsGet issue.number).toList else []

/-- Method 2: search results filtered to pull-request items with a truthy
number; each is fetched and a successful fetch added regardless of state. -/
def method2 (env : Env) (issue : Issue) : List PRInfo :=
  (((env.search issue.number).filter (fun it => it.pull_request)).filter
      (fun it => it.number != 0)).filterMap
    (fun it => env.pullsGet it.number)

/-- Method 3: every number referenced in the body is fetched and kept only
when the fetch succeeds and the fetched state is open. -/
def method3 (env : Env) (owner repo : String) (issue : Issue) : List PRInfo :=
  (bodyPRRefs owner repo issue.body).filterMap fun n =>
    match env.pullsGet n with
    | some pr => if pr.state == "open" then some pr else none
    | none => none

/-- One step of the dedup Map: setting a key keeps its first-insertion
position and replaces the stored value. -/
def mapSet (m : List PRInfo) (pr : PRInfo) : List PRInfo :=
  if m.any (fun q => q.number == pr.number) then
    m.map (fun q => if q.number == pr.number then pr else q)
  else m ++ [pr]

/-- Duplicate removal by pull-request number over the collected list,
skipping entries with a falsy number, as the Map loop does. -/
def dedupByNumber (l : List PRInfo) : List PRInfo :=
  l.foldl (fun m pr => if pr.number != 0 then mapSet m pr else m) []

/-- checkLinkedPRs of src/scripts/index.js: run the three methods, merge
and dedup, and report whether any open pull request remains. An invalid
issue (falsy number) yields false immediately. -/
def checkLinkedPRs (env : Env) (owner repo : String) (issue : Issue) : Bool :=
  if issue.number == 0 then false
  else
    let linked := method1 env issue ++ method2 env issue
                    ++ method3 env owner repo issue
    let uniq := dedupByNumber linked
    let openPRs := uniq.filter (fun pr => pr.state == "open")
    openPRs.length != 0

/- The assignee classifier. -/

/-- Whether an Except call succeeded; an error caught by the membership
helper counts as not a member. -/
def exceptOk (r : Except ApiError Unit) : Bool :=
  match r with
  | .ok _ => true
  | .error _ => false

/-- checkUserMembership of src/scripts/index.js: a failed repository fetch
yields false; otherwise the user is active when the repository owner login
matches or the organization-membership lookup succeeds, and a lookup error
is caught and turned into false. -/
def checkUserMembership (env : Env) (username : String) : Bool :=
  match env.repoOwner with
  | none => false
  | some ownerLogin =>
    if ownerLogin == username then true
    else exceptOk (env.orgMembership username)

/-- The active test of the classifier loop: site admins short-circuit the
membership call. -/
def isActive (env : Env) (u : User) : Bool :=
  u.site_admin || checkUserMembership env u.login

/-- The active logins accumulated by the classifier loop, skipping
assignees with a falsy login. -/
def activeLogins (env : Env) (as : List User) : List String :=
  (as.filter (fun u => u.login != "" && isActive env u)).map (fun u => u.login)

/-- The inactive logins accumulated by the classifier loop, skipping
assignees with a falsy login. -/
def inactiveLogins (env : Env) (as : List User) : List String :=
  (as.filter (fun u => u.login != "" && !isActive env u)).map (fun u => u.login)

/- The mutator. -/

/-- The mention list interpolated twice into the comment template. -/
def mentionList (inactive : List String) : String :=
  String.intercalate ", " (inactive.map (fun l => "@" ++ l))

/-- The comment body template of src/scripts/index.js. -/
def commentBody (inactive : List String) : String :=
  "Automatically unassigning " ++ mentionList inactive ++
  " due to inactivity. " ++ mentionList inactive ++
  ", If you\x27re still interested in this issue or already have work in progress, please message us here, and we\x27ll assign you again. Thank you!"

/-- The unassignment record pushed for one removed login. -/
def mkRecord (owner repo : String) (n : Nat) (login : String) :
    UnassignmentRecord :=
  { user := login, repo := repo, owner := owner, issueNumber := n,
    issueUrl := "https://github.com/" ++ owner ++ "/" ++ repo ++ "/issues/"
                  ++ toString n }

/-- The body of the per-issue loop of module.exports in
src/scripts/index.js: skip invalid issues, issues without assignees,
recently updated issues, issues with linked open pull requests, and issues
whose inactive set is empty; otherwise update the assignees to the active
subset and post the comment. A write error with status 403 is rethrown as
a fatal error; any other write error is logged and the issue skipped. The
result lists the successful writes and the records pushed. -/
def processIssue (env : Env) (owner repo : String) (mins : Nat)
    (issue : Issue) : Except RunError (List Mutation × List UnassignmentRecord) :=
  if issue.number = 0 then .ok ([], [])
  else if issue.assignees.length = 0 then .ok ([], [])
  else if env.now - issue.updated_at ≤ mins * 60 * 1000 then .ok ([], [])
  else if checkLinkedPRs env owner repo issue then .ok ([], [])
  else if (inactiveLogins env issue.assignees).length = 0 then .ok ([], [])
  else
    match env.updateResult issue.number (activeLogins env issue.assignees) with
    | .error e => if e.status = 403 then .error .permission else .ok ([], [])
    | .ok _ =>
      match env.commentResult issue.number
          (commentBody (inactiveLogins env issue.assignees)) with
      | .error e =>
        if e.status = 403 then .error .permission
        else .ok ([.update issue.number (activeLogins env issue.assignees)], [])
      | .ok _ =>
        .ok ([.update issue.number (activeLogins env issue.assignees),
              .comment issue.number
                (commentBody (inactiveLogins env issue.assignees))],
             (inactiveLogins env issue.assignees).map
               (fun l => mkRecord owner repo issue.number l))

/-- The loop over all issues: a fatal error aborts the run, leaving the
remaining issues unprocessed. -/
def processIssues (env : Env) (owner repo : String) (mins : Nat) :
    List Issue → Except RunError (List Mutation × List UnassignmentRecord)
  | [] => .ok ([], [])
  | i :: rest =>
    match processIssue env owner repo mins i with
    | .error e => .error e
    | .ok (ms, rs) =>
      match processIssues env owner repo mins rest with
      | .error e => .error e
      | .ok (ms2, rs2) => .ok (ms ++ ms2, rs ++ rs2)

/- The paginating issue lister. -/

/-- getAllIssues of src/scripts/index.js, from a given starting page: each
page is fetched, pull requests are filtered out, and the loop stops when
the filtered page is empty or shorter than 100 entries. A page error is
caught, logged, and the loop broken, returning what was collected so far.
The fuel only bounds the number of pages visited. -/
def getAllIssuesAux (env : ListerEnv) : Nat → Nat → List Issue
  | _, 0 => []
  | page, fuel + 1 =>
    match env.listPage page with
    | .error _ => []
    | .ok data =>
      let issues := data.filter (fun i => !i.pull_request)
      if issues.length = 0 then []
      else if issues.length < 100 then issues
      else issues ++ getAllIssuesAux env (page + 1) fuel

/-- getAllIssues starts at page 1. -/
def getAllIssues (env : ListerEnv) (fuel : Nat) : List Issue :=
  getAllIssuesAux env 1 fuel

/- The reporter. -/

/-- One group of the summary: the first-seen record fields of an issue key
plus every user unassigned from that issue. -/
structure IssueGroup where
  repo : String
  owner : String
  issueNumber : Nat
  issueUrl : String
  users : List String
  deriving DecidableEq, Repr

/-- The grouping key of a record, the repo name joined to the issue number
by a hash mark. -/
def rKey (r : UnassignmentRecord) : String :=
  r.repo ++ "#" ++ toString r.issueNumber

/-- The grouping key of a group. -/
def gKey (g : IssueGroup) : String :=
  g.repo ++ "#" ++ toString g.issueNumber

/-- One reduce step of formatUnassignments: push the user onto an existing
group for the key, or open a new group initialised from the record. -/
def addRecord (acc : List IssueGroup) (r : UnassignmentRecord) :
    List IssueGroup :=
  if acc.any (fun g => gKey g == rKey r) then
    acc.map (fun g =>
      if gKey g == rKey r then { g with users := g.users ++ [r.user] } else g)
  else
    acc ++ [{ repo := r.repo, owner := r.owner, issueNumber := r.issueNumber,
              issueUrl := r.issueUrl, users := [r.user] }]

/-- The grouping reduce of formatUnassignments; object key order is
first-insertion order since the keys are not integer-like. -/
def groupByIssue (us : List UnassignmentRecord) : List IssueGroup :=
  us.foldl addRecord []

/-- One formatted summary entry. -/
def formatGroup (g : IssueGroup) : String :=
  String.intercalate ", " (g.users.map (fun u => "@" ++ u)) ++ " from <"
    ++ g.issueUrl ++ "|" ++ g.repo ++ "#" ++ toString g.issueNumber ++ ">"

/-- formatUnassignments of src/scripts/index.js. -/
def formatUnassignments (us : List UnassignmentRecord) : String :=
  if us.length = 0 then ""
  else String.intercalate ", " ((groupByIssue us).map formatGroup)

/-- The users stored under a key by the grouping, for stating the grouping
property. -/
def usersOfKey (gs : List IssueGroup) (k : String) : List String :=
  match gs with
  | [] => []
  | g :: rest => if gKey g == k then g.users else usersOfKey rest k

/-- Set-like insertion of a key, keeping first-insertion order. -/
def insertNew (ks : List String) (k : String) : List String :=
  if ks.any (fun x => x == k) then ks else ks ++ [k]

/-- The distinct record keys in first-occurrence order. -/
def keysOf (us : List UnassignmentRecord) : List String :=
  us.foldl (fun ks r => insertNew ks (rKey r)) []

/- The Slack notifier of the raw-HTTP variant. -/

/-- sendSlackNotification: nothing is sent for an empty record list; a
non-ok webhook response is thrown inside the local try, caught, and
logged, so the notification is simply not sent and the caller continues.
The result tells whether the notification went out. -/
def sendSlackNotification (responseOk : Bool)
    (us : List UnassignmentRecord) : Bool :=
  if us.length = 0 then false
  else if responseOk then true else false

/-- The issue state after a completed processing pass: the assignee list
was replaced by the computed active subset. -/
def afterRun (env : Env) (issue : Issue) : Issue :=
  { issue with
    assignees := issue.assignees.filter
      (fun u => u.login != "" && isActive env u) }

/- Concrete fixtures for evaluating the definitions at specific inputs. -/

/-- An ordinary contributor who is neither admin, owner, nor org member. -/
def alice : User := { login := "alice", site_admin := false }

/-- An organization member. -/
def bob : User := { login := "bob", site_admin := false }

/-- Another ordinary contributor. -/
def carol : User := { login := "carol", site_admin := false }

/-- A healthy environment: repository owned by octo, bob an org member,
no pull requests anywhere, all writes succeeding, clock at 45 minutes. -/
def envA : Env :=
  { now := 2700000
    repoOwner := some "octo"
    orgMembership := fun s => if s == "bob" then .ok () else .error ⟨404⟩
    pullsGet := fun _ => none
    search := fun _ => []
    updateResult := fun _ _ => .ok ()
    commentResult := fun _ _ => .ok () }

/-- Like envA but with pull request 5 open. -/
def envB : Env :=
  { envA with pullsGet := fun n => if n == 5 then some ⟨5, "open"⟩ else none }

/-- Like envA but every membership lookup fails and every assignee update
fails with HTTP 403. -/
def env403 : Env :=
  { envA with
    orgMembership := fun _ => .error ⟨404⟩
    updateResult := fun _ _ => .error ⟨403⟩ }

/-- Like env403 but the update failure carries HTTP 500. -/
def env500 : Env :=
  { env403 with updateResult := fun _ _ => .error ⟨500⟩ }

/-- Issue 42, last updated 45 minutes before envA.now, assigned to alice
and bob. -/
def issue42 : Issue :=
  { number := 42, updated_at := 0, body := none, assignees := [alice, bob],
    pull_request := false }

/-- Issue 9, assigned only to the org member bob. -/
def issue9 : Issue :=
  { number := 9, updated_at := 0, body := none, assignees := [bob],
    pull_request := false }

/-- Issue 8, inactive and assigned to carol, whose body closes pull
request 5. -/
def issue8 : Issue :=
  { number := 8, updated_at := 0, body := some "fixes #5",
    assignees := [carol], pull_request := false }

/-- One hundred plain issues, as the full first page of a listing. -/
def page1Issues : List Issue :=
  (List.range 100).map fun k =>
    { number := k + 1, updated_at := 0, body := none, assignees := [],
      pull_request := false }

/-- A lister environment whose first page is full and whose second page
request fails. -/
def envL : ListerEnv :=
  { listPage := fun p => if p == 1 then .ok page1Issues
                         else .error "network failure" }

/-- The records of the reporter example. -/
def exampleRecords : List UnassignmentRecord :=
  [{ user := "u1", repo := "r", owner := "o", issueNumber := 5, issueUrl := "url5" },
   { user := "u2", repo := "r", owner := "o", issueNumber := 5, issueUrl := "url5" },
   { user := "u3", repo := "r", owner := "o", issueNumber := 9, issueUrl := "url9" }]

/- Claim theorems. -/

/-- C1: an issue qualifies for unassignment processing only with at least
one assignee and with elapsed inactivity strictly greater than the
threshold; with zero assignees, or with elapsed time at most the threshold
(in particular exactly equal to it), the run performs no write and
produces no unassignment record. -/
theorem inactivity_filter_strict (env : Env) (owner repo : String)
    (mins : Nat) (issue : Issue)
    (h : issue.assignees = [] ∨ env.now - issue.updated_at ≤ mins * 60 * 1000) :
    processIssue env owner repo mins issue = .ok ([], []) := by
  unfold processIssue
  split
  · rfl
  split
  · rfl
  next h1 =>
    split
    · rfl
    next h2 =>
      rcases h with h | h
      · exact absurd (by rw [h]; rfl) h1
      · exact absurd h h2

/-- Witness for C1: issue 42 with elapsed time exactly equal to a
45-minute threshold is left untouched. -/
theorem inactivity_filter_strict_witness :
    processIssue envA "octo" "r" 45 issue42 = .ok ([], []) :=
  inactivity_filter_strict envA "octo" "r" 45 issue42 (Or.inr (by decide))

/-- C2: an issue exempted by the linked-work guard receives no write and
produces no unassignment record, whatever the rest of the environment
says. -/
theorem linked_pr_guard_exempt (env : Env) (owner repo : String)
    (mins : Nat) (issue : Issue)
    (h : checkLinkedPRs env owner repo issue = true) :
    processIssue env owner repo mins issue = .ok ([], []) := by
  unfold processIssue
  split
  · rfl
  split
  · rfl
  split
  · rfl
  rfl

/-- Witness for C2: inactive issue 8 whose body says fixes hash-5 while
pull request 5 is open is skipped entirely. -/
theorem linked_pr_guard_exempt_witness :
    processIssue envB "octo" "r" 1 issue8 = .ok ([], []) :=
  linked_pr_guard_exempt envB "octo" "r" 1 issue8 (by decide)

/-- C3: on a qualifying, non-exempted issue with a non-empty inactive set
and succeeding writes, the mutator performs exactly one assignee update
carrying exactly the computed active subset (a full replace) and exactly
one comment whose body names every removed inactive login, and pushes one
record per removed login. -/
theorem mutator_full_replace (env : Env) (owner repo : String) (mins : Nat)
    (issue : Issue)
    (h0 : ¬ issue.number = 0)
    (h1 : ¬ issue.assignees.length = 0)
    (h2 : mins * 60 * 1000 < env.now - issue.updated_at)
    (h3 : checkLinkedPRs env owner repo issue = false)
    (h4 : ¬ (inactiveLogins env issue.assignees).length = 0)
    (h5 : env.updateResult issue.number (activeLogins env issue.assignees)
            = .ok ())
    (h6 : env.commentResult issue.number
            (commentBody (inactiveLogins env issue.assignees)) = .ok ()) :
    processIssue env owner repo mins issue =
      .ok ([.update issue.number (activeLogins env issue.assignees),
            .comment issue.number
              (commentBody (inactiveLogins env issue.assignees))],
           (inactiveLogins env issue.assignees).map
             (fun l => mkRecord owner repo issue.number l)) := by
  unfold processIssue
  rw [if_neg h0, if_neg h1, if_neg (Nat.not_le.mpr h2),
      if_neg (by simp [h3]), if_neg h4, h5, h6]

/-- Witness for C3: issue 42 at a 30-minute threshold loses alice, keeps
the org member bob, and gets one comment mentioning alice. -/
theorem mutator_full_replace_witness :
    processIssue envA "octo" "r" 30 issue42 =
      .ok ([.update 42 ["bob"], .comment 42 (commentBody ["alice"])],
           [mkRecord "octo" "r" 42 "alice"]) := by
  have h := mutator_full_replace envA "octo" "r" 30 issue42
    (by decide) (by decide) (by decide) (by decide) (by decide) rfl rfl
  exact h

/-- C4: with the repository fetch succeeding, an assignee is classified
active exactly when a site admin, the repository owner, or an assignee
whose organization-membership lookup succeeded; a failed lookup counts as
not a member rather than as an error. When the inactive set of an issue is
empty, no action is taken on it. -/
theorem classifier_active_iff (env : Env) (o : String) (u : User)
    (owner repo : String) (mins : Nat) (issue : Issue)
    (h1 : env.repoOwner = some o)
    (h3 : inactiveLogins env issue.assignees = []) :
    isActive env u
      = (u.site_admin || (o == u.login) || exceptOk (env.orgMembership u.login))
    ∧ processIssue env owner repo mins issue = .ok ([], []) := by
  constructor
  · unfold isActive checkUserMembership
    rw [h1]
    cases h : (o == u.login) <;> simp [h]
  · unfold processIssue
    split
    · rfl
    split
    · rfl
    split
    · rfl
    split
    · rfl
    rw [if_pos (by rw [h3]; rfl)]

/-- Witness for C4: under envA, alice (failed membership lookup) is
inactive and matches the disjunction; issue 9, whose only assignee bob is
an org member, is not acted upon. -/
theorem classifier_active_iff_witness :
    (isActive envA alice
      = (alice.site_admin || ("octo" == alice.login)
          || exceptOk (envA.orgMembership alice.login)))
    ∧ processIssue envA "octo" "r" 1 issue9 = .ok ([], []) :=
  classifier_active_iff envA "octo" alice "octo" "r" 1 issue9 rfl (by decide)

/-- C8: a second run immediately after a completed pass, on the issue
whose assignee list is now exactly the computed active subset, performs no
write and produces no record, for every environment and issue. -/
theorem second_run_idempotent (env : Env) (owner repo : String)
    (mins : Nat) (issue : Issue) :
    processIssue env owner repo mins (afterRun env issue) = .ok ([], []) := by
  have hin : inactiveLogins env ((afterRun env issue).assignees) = [] := by
    unfold afterRun inactiveLogins
    rw [List.filter_filter]
    have hfalse : ∀ u : User,
        ((u.login != "" && !isActive env u) && (u.login != "" && isActive env u))
          = false := by
      intro u; cases h : isActive env u <;> simp [h]
    simp [hfalse]
  unfold processIssue
  split
  · rfl
  split
  · rfl
  split
  · rfl
  split
  · rfl
  rw [if_pos (by rw [hin]; rfl)]

/-- C10: whenever a processed issue contributes records, the successful
update and the successful comment are both among the performed writes, so
the summary never names a user whose removal-and-comment sequence did not
complete. -/
theorem record_requires_both_writes (env : Env) (owner repo : String)
    (mins : Nat) (issue : Issue) (muts : List Mutation)
    (recs : List UnassignmentRecord)
    (h : processIssue env owner repo mins issue = .ok (muts, recs))
    (h2 : recs ≠ []) :
    Mutation.update issue.number (activeLogins env issue.assignees) ∈ muts
    ∧ Mutation.comment issue.number
        (commentBody (inactiveLogins env issue.assignees)) ∈ muts
    ∧ env.updateResult issue.number (activeLogins env issue.assignees)
        = .ok ()
    ∧ env.commentResult issue.number
        (commentBody (inactiveLogins env issue.assignees)) = .ok () := by
  unfold processIssue at h
  split at h
  · cases h; exact absurd rfl h2
  split at h
  · cases h; exact absurd rfl h2
  split at h
  · cases h; exact absurd rfl h2
  split at h
  · cases h; exact absurd rfl h2
  split at h
  · cases h; exact absurd rfl h2
  split at h
  next e hupd =>
    split at h
    · cases h
    · cases h; exact absurd rfl h2
  next u hupd =>
    split at h
    next e hcmt =>
      split at h
      · cases h
      · cases h; exact absurd rfl h2
    next v hcmt =>
      cases h
      cases u; cases v
      exact ⟨by simp, by simp, hupd, hcmt⟩

/-- Witness for C10: the fully processed issue 42 yields the record for
alice, and both writes are present and succeeded. -/
theorem record_requires_both_writes_witness :
    Mutation.update issue42.number (activeLogins envA issue42.assignees)
        ∈ [Mutation.update 42 ["bob"], Mutation.comment 42 (commentBody ["alice"])]
    ∧ Mutation.comment issue42.number
        (commentBody (inactiveLogins envA issue42.assignees))
        ∈ [Mutation.update 42 ["bob"], Mutation.comment 42 (commentBody ["alice"])]
    ∧ envA.updateResult issue42.number (activeLogins envA issue42.assignees)
        = .ok ()
    ∧ envA.commentResult issue42.number
        (commentBody (inactiveLogins envA issue42.assignees)) = .ok () :=
  record_requires_both_writes envA "octo" "r" 30 issue42
    [Mutation.update 42 ["bob"], Mutation.comment 42 (commentBody ["alice"])]
    [mkRecord "octo" "r" 42 "alice"] rfl (by decide)

/- Lemmas about the linked-PR guard. -/

/-- Nonemptiness of a filtered list, as the guard tests it, agrees with
the any combinator. -/
theorem filter_length_bne (l : List PRInfo) (p : PRInfo → Bool) :
    ((l.filter p).length != 0) = l.any p := by
  induction l with
  | nil => rfl
  | cons a t ih =>
    cases hpa : p a <;>
      simp [List.filter_cons, hpa, List.any_cons, ih]

/-- Every pull request contributed by the body-scan method was fetched
with state open. -/
theorem method3_open (env : Env) (owner repo : String) (issue : Issue) :
    (method3 env owner repo issue).all (fun pr => pr.state == "open") = true := by
  rw [List.all_eq_true]
  intro pr hpr
  unfold method3 at hpr
  rw [List.mem_filterMap] at hpr
  obtain ⟨n, _, hf⟩ := hpr
  cases hg : env.pullsGet n with
  | none => rw [hg] at hf; exact Option.noConfusion hf
  | some pr0 =>
    rw [hg] at hf
    by_cases hs : (pr0.state == "open") = true
    · simp only [if_pos hs] at hf
      cases hf
      exact hs
    · simp only [if_neg hs] at hf
      exact Option.noConfusion hf

/-- Setting a key in the dedup map keeps the key list unchanged when the
key is present, and appends it otherwise. -/
theorem mapSet_map_number (m : List PRInfo) (pr : PRInfo) :
    (mapSet m pr).map (fun q => q.number)
      = if m.any (fun q => q.number == pr.number)
        then m.map (fun q => q.number)
        else m.map (fun q => q.number) ++ [pr.number] := by
  by_cases hany : (m.any (fun q => q.number == pr.number)) = true
  · rw [mapSet, if_pos hany, if_pos hany, List.map_map]
    apply List.map_congr_left
    intro q _
    show (if q.number == pr.number then pr else q).number = q.number
    by_cases hq : (q.number == pr.number) = true
    · rw [if_pos hq]
      have hqq : q.number = pr.number := by simpa using hq
      exact hqq.symm
    · rw [if_neg hq]
  · rw [mapSet, if_neg hany, if_neg hany, List.map_append]
    rfl

/-- The dedup fold keeps the pull-request numbers distinct. -/
theorem dedup_go_nodup : ∀ (l m : List PRInfo),
    ((m.map (fun q => q.number)).Nodup) →
    (((l.foldl (fun acc pr => if pr.number != 0 then mapSet acc pr else acc)
        m)).map (fun q => q.number)).Nodup := by
  intro l
  induction l with
  | nil => intro m hm; exact hm
  | cons pr t ih =>
    intro m hm
    simp only [List.foldl_cons]
    by_cases h0 : (pr.number != 0) = true
    · rw [if_pos h0]
      apply ih
      rw [mapSet_map_number]
      by_cases hany : (m.any (fun q => q.number == pr.number)) = true
      · rw [if_pos hany]; exact hm
      · rw [if_neg hany]
        have hnot : pr.number ∉ m.map (fun q => q.number) := by
          intro hmem
          apply hany
          rw [List.any_eq_true]
          rw [List.mem_map] at hmem
          obtain ⟨q, hq, he⟩ := hmem
          exact ⟨q, hq, by simp [he]⟩
        simp [List.nodup_append, hm, hnot]
    · rw [if_neg h0]; exact ih m hm

/-- The numbers surviving dedupByNumber are pairwise distinct. -/
theorem dedupByNumber_nodup (l : List PRInfo) :
    ((dedupByNumber l).map (fun q => q.number)).Nodup :=
  dedup_go_nodup l [] (by simp)

/-- C5: for a valid issue, the guard equals the test that the
number-deduplicated union of the three detection methods (the direct
linkage fetch, the search fetches, and the body-scan fetches) contains an
open pull request; every body-scan contribution was kept only with
fetched state open; and the deduplicated union has pairwise distinct
pull-request numbers. -/
theorem guard_union_of_methods (env : Env) (owner repo : String)
    (issue : Issue) (h : issue.number ≠ 0) :
    checkLinkedPRs env owner repo issue
      = (dedupByNumber (method1 env issue ++ method2 env issue
          ++ method3 env owner repo issue)).any (fun pr => pr.state == "open")
    ∧ (method3 env owner repo issue).all (fun pr => pr.state == "open") = true
    ∧ ((dedupByNumber (method1 env issue ++ method2 env issue
          ++ method3 env owner repo issue)).map (fun q => q.number)).Nodup := by
  refine ⟨?_, method3_open env owner repo issue, dedupByNumber_nodup _⟩
  have hnum : (issue.number == 0) = false := by simp [h]
  simp only [checkLinkedPRs, hnum, Bool.false_eq_true, if_false]
  exact filter_length_bne _ _

/-- Witness for C5: evaluated on issue 8 whose body closes the open pull
request 5. -/
theorem guard_union_of_methods_witness :
    checkLinkedPRs envB "octo" "r" issue8
      = (dedupByNumber (method1 envB issue8 ++ method2 envB issue8
          ++ method3 envB "octo" "r" issue8)).any (fun pr => pr.state == "open")
    ∧ (method3 envB "octo" "r" issue8).all (fun pr => pr.state == "open") = true
    ∧ ((dedupByNumber (method1 envB issue8 ++ method2 envB issue8
          ++ method3 envB "octo" "r" issue8)).map (fun q => q.number)).Nodup :=
  guard_union_of_methods envB "octo" "r" issue8 (by decide)

/- Lemmas about the reporter grouping. -/

/-- Pushing a user onto a group keeps its key. -/
theorem gKey_setUsers (g : IssueGroup) (us : List String) :
    gKey { g with users := us } = gKey g := rfl

/-- Updating the group of another key leaves the users of this key
unchanged. -/
theorem usersOfKey_map_upd (r : UnassignmentRecord) (k : String)
    (acc : List IssueGroup) (hk : k ≠ rKey r) :
    usersOfKey (acc.map (fun g =>
        if gKey g == rKey r then { g with users := g.users ++ [r.user] }
        else g)) k
      = usersOfKey acc k := by
  induction acc with
  | nil => rfl
  | cons g t ih =>
    simp only [List.map_cons, usersOfKey]
    by_cases hgr : (gKey g == rKey r) = true
    · have hgk : (gKey g == k) = false := by
        have hge : gKey g = rKey r := by simpa using hgr
        rw [hge]
        exact beq_eq_false_iff_ne.mpr (Ne.symm hk)
      rw [if_pos hgr, gKey_setUsers, hgk]
      simp only [Bool.false_eq_true, if_false]
      exact ih
    · rw [if_neg hgr]
      by_cases hgk : (gKey g == k) = true
      · rw [hgk]; rfl
      · simp only [hgk, Bool.false_eq_true, if_false]
        exact ih

/-- When the key is present, updating its group appends the user to the
users of that key. -/
theorem usersOfKey_map_upd_self (r : UnassignmentRecord)
    (acc : List IssueGroup)
    (hany : acc.any (fun g => gKey g == rKey r) = true) :
    usersOfKey (acc.map (fun g =>
        if gKey g == rKey r then { g with users := g.users ++ [r.user] }
        else g)) (rKey r)
      = usersOfKey acc (rKey r) ++ [r.user] := by
  induction acc with
  | nil => cases hany
  | cons g t ih =>
    simp only [List.map_cons, usersOfKey]
    by_cases hgr : (gKey g == rKey r) = true
    · rw [if_pos hgr, gKey_setUsers, hgr]
      rfl
    · have hany2 : t.any (fun g => gKey g == rKey r) = true := by
        simpa [List.any_cons, hgr] using hany
      rw [if_neg hgr]
      simp only [hgr, Bool.false_eq_true, if_false]
      exact ih hany2

/-- A key absent from the accumulator stores no users. -/
theorem usersOfKey_of_not_any (acc : List IssueGroup) (k : String)
    (h : acc.any (fun g => gKey g == k) = false) :
    usersOfKey acc k = [] := by
  induction acc with
  | nil => rfl
  | cons g t ih =>
    simp only [List.any_cons, Bool.or_eq_false_iff] at h
    simp only [usersOfKey, h.1, Bool.false_eq_true, if_false]
    exact ih h.2

/-- Appending a group of a different key leaves the users of this key
unchanged. -/
theorem usersOfKey_append_ne (acc : List IssueGroup) (g' : IssueGroup)
    (k : String) (h : (gKey g' == k) = false) :
    usersOfKey (acc ++ [g']) k = usersOfKey acc k := by
  induction acc with
  | nil => simp [usersOfKey, h]
  | cons g t ih =>
    simp only [List.cons_append, usersOfKey]
    by_cases hg : (gKey g == k) = true
    · simp [hg]
    · simp only [hg, Bool.false_eq_true, if_false]
      exact ih

/-- Appending a group when its key is absent makes its users the stored
users of that key. -/
theorem usersOfKey_append_self (acc : List IssueGroup) (g' : IssueGroup)
    (h : acc.any (fun g => gKey g == gKey g') = false) :
    usersOfKey (acc ++ [g']) (gKey g') = g'.users := by
  induction acc with
  | nil => simp [usersOfKey]
  | cons g t ih =>
    simp only [List.any_cons, Bool.or_eq_false_iff] at h
    simp only [List.cons_append, usersOfKey, h.1, Bool.false_eq_true, if_false]
    exact ih h.2

/-- One reduce step, expressed on the users stored under a key. -/
theorem usersOfKey_addRecord (acc : List IssueGroup)
    (r : UnassignmentRecord) (k : String) :
    usersOfKey (addRecord acc r) k
      = if k = rKey r then usersOfKey acc k ++ [r.user]
        else usersOfKey acc k := by
  unfold addRecord
  by_cases hany : acc.any (fun g => gKey g == rKey r) = true
  · rw [if_pos hany]
    by_cases hk : k = rKey r
    · subst hk
      rw [if_pos rfl]
      exact usersOfKey_map_upd_self r acc hany
    · rw [if_neg hk]
      exact usersOfKey_map_upd r k acc hk
  · rw [if_neg hany]
    rw [Bool.not_eq_true] at hany
    have hgnew : gKey ⟨r.repo, r.owner, r.issueNumber, r.issueUrl, [r.user]⟩
        = rKey r := rfl
    by_cases hk : k = rKey r
    · subst hk
      rw [if_pos rfl, usersOfKey_of_not_any acc _ hany, ← hgnew,
        usersOfKey_append_self acc _ (by rw [hgnew]; exact hany)]
      rfl
    · rw [if_neg hk]
      refine usersOfKey_append_ne acc _ k ?_
      rw [hgnew]
      exact beq_eq_false_iff_ne.mpr (Ne.symm hk)

/-- One reduce step, expressed on the key list. -/
theorem map_gKey_addRecord (acc : List IssueGroup)
    (r : UnassignmentRecord) :
    (addRecord acc r).map gKey = insertNew (acc.map gKey) (rKey r) := by
  unfold addRecord insertNew
  have hmapany : ((acc.map gKey).any (fun x => x == rKey r))
      = acc.any (fun g => gKey g == rKey r) := by
    induction acc with
    | nil => rfl
    | cons g t ih => simp [List.any_cons, ih]
  rw [hmapany]
  by_cases hany : acc.any (fun g => gKey g == rKey r) = true
  · rw [if_pos hany, if_pos hany, List.map_map]
    apply List.map_congr_left
    intro g _
    show gKey (if gKey g == rKey r then { g with users := g.users ++ [r.user] }
        else g) = gKey g
    by_cases hg : (gKey g == rKey r) = true
    · rw [if_pos hg, gKey_setUsers]
    · rw [if_neg hg]
  · rw [if_neg hany, if_neg hany, List.map_append]
    rfl

/-- The grouping fold, on the users stored under a key: the users of a key
are the accumulated ones followed by the users of the records with that
key, in record order. -/
theorem usersOfKey_foldl (us : List UnassignmentRecord) :
    ∀ (acc : List IssueGroup) (k : String),
      usersOfKey (us.foldl addRecord acc) k
        = usersOfKey acc k
            ++ (us.filter (fun r => rKey r == k)).map (fun r => r.user) := by
  induction us with
  | nil => intro acc k; simp
  | cons r t ih =>
    intro acc k
    simp only [List.foldl_cons, List.filter_cons]
    rw [ih (addRecord acc r) k, usersOfKey_addRecord]
    by_cases hk : k = rKey r
    · subst hk
      simp [List.append_assoc]
    · have hrk : (rKey r == k) = false :=
        beq_eq_false_iff_ne.mpr (Ne.symm hk)
      simp [hk, hrk]

/-- The grouping fold, on the key list. -/
theorem keys_foldl (us : List UnassignmentRecord) :
    ∀ (acc : List IssueGroup),
      (us.foldl addRecord acc).map gKey
        = us.foldl (fun ks r => insertNew ks (rKey r)) (acc.map gKey) := by
  induction us with
  | nil => intro acc; rfl
  | cons r t ih =>
    intro acc
    simp only [List.foldl_cons]
    rw [ih (addRecord acc r), map_gKey_addRecord]

/-- Set-like insertion preserves distinctness. -/
theorem insertNew_nodup (ks : List String) (k : String) (h : ks.Nodup) :
    (insertNew ks k).Nodup := by
  unfold insertNew
  split
  · exact h
  next hany =>
    have : k ∉ ks := by
      intro hmem
      exact hany (by rw [List.any_eq_true]; exact ⟨k, hmem, by simp⟩)
    simp [List.nodup_append, h, this]

/-- The key fold produces distinct keys from a distinct accumulator. -/
theorem keysOf_go_nodup (us : List UnassignmentRecord) :
    ∀ (ks : List String), ks.Nodup →
      (us.foldl (fun ks r => insertNew ks (rKey r)) ks).Nodup := by
  induction us with
  | nil => intro ks h; exact h
  | cons r t ih =>
    intro ks h
    simp only [List.foldl_cons]
    exact ih _ (insertNew_nodup ks (rKey r) h)

/-- C9: the formatted summary of the example records yields one entry for
issue 5 naming u1 and u2 and one entry for issue 9 naming u3; and in
general the grouping emits exactly one group per distinct issue key, in
first-occurrence order, whose stored users are exactly the users of the
records with that key. -/
theorem reporter_grouping (us : List UnassignmentRecord) (k : String) :
    formatUnassignments exampleRecords
      = "@u1, @u2 from <url5|r#5>, @u3 from <url9|r#9>"
    ∧ (groupByIssue us).map gKey = keysOf us
    ∧ (keysOf us).Nodup
    ∧ usersOfKey (groupByIssue us) k
        = (us.filter (fun r => rKey r == k)).map (fun r => r.user) := by
  refine ⟨by decide, ?_, keysOf_go_nodup us [] List.nodup_nil, ?_⟩
  · rw [groupByIssue, keys_foldl us []]
    rfl
  · rw [groupByIssue, usersOfKey_foldl us [] k]
    rfl

/-- A filterMap that always declines produces the empty list. -/
theorem filterMap_const_none {A B : Type} (l : List A) :
    l.filterMap (fun _ => (none : Option B)) = [] := by
  induction l with
  | nil => rfl
  | cons a t ih => simp [List.filterMap_cons, ih]

/- C6: error propagation policy. -/

/-- Counterexample to C6 as stated: on qualifying issue 42 the assignee
update fails with HTTP 500, a primary-mutation-path error, yet the run
does not abort: the issue is skipped with no record and processing
reports success, so errors from the primary mutation path are not fatal
in general. -/
theorem primary_error_not_fatal_cex :
    env500.updateResult issue42.number (activeLogins env500 issue42.assignees)
        = .error ⟨500⟩
    ∧ processIssue env500 "octo" "r" 1 issue42 = .ok ([], [])
    ∧ processIssues env500 "octo" "r" 1 [issue42] = .ok ([], []) :=
  ⟨rfl, rfl, rfl⟩

/-- C6 as amended: auxiliary best-effort failures are swallowed into
conservative defaults (a failed membership lookup classifies the user
inactive, failing pull-request fetches make the guard report no linked
work, a failed webhook call just means the notification is not sent),
while on the primary mutation path exactly the permission failure (HTTP
403) of a write is fatal: it aborts the whole run before the remaining
issues, whereas any other write error only skips the issue. -/
theorem error_policy_amended (env : Env) (owner repo : String) (mins : Nat)
    (issue : Issue) (o : String) (u : User) (e a : ApiError)
    (us : List UnassignmentRecord) (rest : List Issue)
    (h1 : env.repoOwner = some o)
    (h2 : o ≠ u.login)
    (h3 : u.site_admin = false)
    (h4 : env.orgMembership u.login = .error e)
    (h5 : ∀ n, env.pullsGet n = none)
    (h6 : ¬ issue.number = 0)
    (h7 : ¬ inactiveLogins env issue.assignees = [])
    (h8 : mins * 60 * 1000 < env.now - issue.updated_at)
    (h9 : env.updateResult issue.number (activeLogins env issue.assignees)
            = .error a) :
    isActive env u = false
    ∧ checkLinkedPRs env owner repo issue = false
    ∧ processIssue env owner repo mins issue
        = (if a.status = 403 then .error .permission else .ok ([], []))
    ∧ (processIssue env owner repo mins issue = .error .permission →
        processIssues env owner repo mins (issue :: rest) = .error .permission)
    ∧ sendSlackNotification false us = false := by
  have hactive : isActive env u = false := by
    have hbeq : (o == u.login) = false := beq_eq_false_iff_ne.mpr h2
    unfold isActive checkUserMembership exceptOk
    rw [h1]
    simp [h3, h4, hbeq]
  have hguard : checkLinkedPRs env owner repo issue = false := by
    unfold checkLinkedPRs method1 method2 method3
    simp [h5, h6, filterMap_const_none, dedupByNumber]
  have hassign : ¬ issue.assignees.length = 0 := by
    intro hlen
    rw [List.length_eq_zero] at hlen
    exact h7 (by rw [hlen]; rfl)
  have hproc : processIssue env owner repo mins issue
      = (if a.status = 403 then .error .permission else .ok ([], [])) := by
    unfold processIssue
    rw [if_neg h6, if_neg hassign, if_neg (Nat.not_le.mpr h8),
      if_neg (by simp [hguard]),
      if_neg (fun hl => h7 (List.length_eq_zero.mp hl)), h9]
  refine ⟨hactive, hguard, hproc, ?_, ?_⟩
  · intro habort
    unfold processIssues
    rw [habort]
  · unfold sendSlackNotification
    split
    · rfl
    · rfl

/-- Witness for C6 as amended: under env403 the membership lookup for
alice fails and she is inactive, no pull request is reachable, and the
update failure carries status 403, so processing aborts with the
permission error. -/
theorem error_policy_amended_witness :
    isActive env403 alice = false
    ∧ checkLinkedPRs env403 "octo" "r" issue42 = false
    ∧ processIssue env403 "octo" "r" 1 issue42
        = (if (403 : Nat) = 403 then .error .permission else .ok ([], []))
    ∧ (processIssue env403 "octo" "r" 1 issue42 = .error .permission →
        processIssues env403 "octo" "r" 1 [issue42] = .error .permission)
    ∧ sendSlackNotification false [] = false := by
  have h := error_policy_amended env403 "octo" "r" 1 issue42 "octo" alice
    ⟨404⟩ ⟨403⟩ [] [] rfl (by decide) rfl rfl (fun n => rfl) (by decide)
    (by decide) (by decide) rfl
  exact h

/- C7: the paginating lister. -/

/-- Counterexample to C7 as stated: the first page is full (100 issues)
and the second page request fails, yet getAllIssues does not fail the run:
it returns the partial result of page 1 and the caller continues. -/
theorem lister_partial_on_error_cex :
    envL.listPage 2 = .error "network failure"
    ∧ getAllIssues envL 10 = page1Issues
    ∧ page1Issues.length = 100 := by
  refine ⟨rfl, ?_, rfl⟩
  rfl

/-- The lister fold over a run of full pages: with pages page, page+1, ...
succeeding and each contributing exactly 100 non-pull-request issues, the
collection is those pages filtered and concatenated, followed by whatever
the continuation from the next page yields. -/
theorem getAllIssuesAux_full_run (env : ListerEnv) :
    ∀ (m : Nat) (rawOf : Nat → List Issue) (page fuel : Nat),
      (∀ k, k < m → env.listPage (page + k) = .ok (rawOf k)
        ∧ ((rawOf k).filter (fun i => !i.pull_request)).length = 100) →
      m < fuel →
      getAllIssuesAux env page fuel
        = ((List.range m).map
            (fun k => (rawOf k).filter (fun i => !i.pull_request))).flatten
          ++ getAllIssuesAux env (page + m) (fuel - m) := by
  intro m
  induction m with
  | zero =>
    intro rawOf page fuel _ _
    simp
  | succ m ih =>
    intro rawOf page fuel h hf
    obtain ⟨f, rfl⟩ : ∃ f, fuel = f + 1 := ⟨fuel - 1, by omega⟩
    have h0 := h 0 (Nat.succ_pos m)
    rw [Nat.add_zero] at h0
    have hstep : getAllIssuesAux env page (f + 1)
        = (rawOf 0).filter (fun i => !i.pull_request)
          ++ getAllIssuesAux env (page + 1) f := by
      show (match env.listPage page with
        | .error _ => []
        | .ok data =>
          let issues := data.filter (fun (i : Issue) => !i.pull_request)
          if issues.length = 0 then []
          else if issues.length < 100 then issues
          else issues ++ getAllIssuesAux env (page + 1) f) = _
      rw [h0.1]
      simp only [h0.2]
      norm_num
    rw [hstep, ih (fun k => rawOf (k + 1)) (page + 1) f
      (fun k hk => by
        have hx := h (k + 1) (by omega)
        rwa [show page + (k + 1) = page + 1 + k by omega] at hx)
      (by omega)]
    rw [List.range_succ_eq_map]
    simp only [List.map_cons, List.map_map, List.flatten_cons]
    rw [← List.append_assoc]
    have hpg : page + 1 + m = page + (m + 1) := by omega
    have hfu : f - m = f + 1 - (m + 1) := by omega
    rw [hpg, hfu]
    rfl

/-- C7 as amended: the lister fetches fixed-size pages from page 1,
keeping the non-pull-request items of each page; it stops at the first
page whose filtered contents are empty or shorter than the page size, and
a failing page request does not fail the run: pagination stops there and
the issues collected from the earlier pages are returned as a partial
result. -/
theorem lister_pagination_amended (env : ListerEnv)
    (rawOf : Nat → List Issue) (m fuel : Nat) (err : String)
    (raw2 : List Issue)
    (h : ∀ k, k < m → env.listPage (1 + k) = .ok (rawOf k)
      ∧ ((rawOf k).filter (fun i => !i.pull_request)).length = 100)
    (hf : m < fuel) :
    (env.listPage (1 + m) = .error err →
      getAllIssues env fuel
        = ((List.range m).map
            (fun k => (rawOf k).filter (fun i => !i.pull_request))).flatten)
    ∧ (env.listPage (1 + m) = .ok raw2 →
      (raw2.filter (fun i => !i.pull_request)).length < 100 →
      getAllIssues env fuel
        = ((List.range m).map
            (fun k => (rawOf k).filter (fun i => !i.pull_request))).flatten
          ++ raw2.filter (fun i => !i.pull_request)) := by
  have base := getAllIssuesAux_full_run env m rawOf 1 fuel h hf
  obtain ⟨g, hg⟩ : ∃ g, fuel - m = g + 1 := ⟨fuel - m - 1, by omega⟩
  constructor
  · intro herr
    rw [getAllIssues, base, hg]
    have : getAllIssuesAux env (1 + m) (g + 1) = [] := by
      show (match env.listPage (1 + m) with
        | .error _ => []
        | .ok data =>
          let issues := data.filter (fun (i : Issue) => !i.pull_request)
          if issues.length = 0 then []
          else if issues.length < 100 then issues
          else issues ++ getAllIssuesAux env (1 + m + 1) g) = _
      rw [herr]
    rw [this, List.append_nil]
  · intro hok hlen
    rw [getAllIssues, base, hg]
    have : getAllIssuesAux env (1 + m) (g + 1)
        = raw2.filter (fun i => !i.pull_request) := by
      show (match env.listPage (1 + m) with
        | .error _ => []
        | .ok data =>
          let issues := data.filter (fun (i : Issue) => !i.pull_request)
          if issues.length = 0 then []
          else if issues.length < 100 then issues
          else issues ++ getAllIssuesAux env (1 + m + 1) g) = _
      rw [hok]
      by_cases hz : (raw2.filter (fun i => !i.pull_request)).length = 0
      · rw [List.length_eq_zero] at hz
        simp [hz]
      · simp only [if_neg hz, if_pos hlen]
    rw [this]

/-- Witness for C7 as amended: with the concrete lister whose page 1 is
full and page 2 fails, the run returns exactly the page 1 issues. -/
theorem lister_pagination_amended_witness :
    getAllIssues envL 10
      = ((List.range 1).map
          (fun k => ((fun _ : Nat => page1Issues) k).filter
            (fun i => !i.pull_request))).flatten :=
  (lister_pagination_amended envL (fun _ => page1Issues) 1 10
      "network failure" []
      (fun k hk => by
        interval_cases k
        exact ⟨rfl, rfl⟩)
      (by omega)).1 rfl

end Unassign
